import Mathlib

/-!
Verification development for the event aggregation and relevance-ranking
pipeline (the `MeetupClient` class).

Shallow embedding notes:
  * JavaScript numbers that hold parse results are modelled by `JsNum`:
    either an integer or NaN (`parseInt` yields NaN on non-numeric text and
    never throws).
  * Geographic coordinates and distances are idealized as real numbers; the
    numeric value of a distance is not the subject of any claim here, only
    whether the field is set.
  * HTTP transports are modelled by passing the response a call would
    receive as an explicit argument: the feed fetch receives one
    `HttpResp GraphQLResponse`, and the i-th scoring request of a batch
    receives `replies i` (the body of a completion response is taken to be
    the message content string, the only part the code reads on success).
    The prompt text sent to the completion provider does not influence the
    modelled responses, so prompt construction is not embedded.
  * `throw new Error(msg)` is modelled as `Except.error msg`.
  * `Promise.all` over the per-event scoring map is determinized as a
    left-to-right traversal: it fails with the lowest-index transport
    failure when one exists, else succeeds with all scored events.
-/

/-- A JavaScript number as produced by `parseInt`: an integer or NaN. -/
inductive JsNum where
  | int : Int → JsNum
  | nan : JsNum
deriving DecidableEq, Repr

/-- Coordinates with latitude and longitude in degrees. -/
structure Coordinates where
  latitude : ℝ
  longitude : ℝ

/-- A JS `Date` built from the feed ISO string; only carried, never computed with. -/
structure JsDate where
  raw : String
deriving DecidableEq, Repr

/-- The internal event representation (`MeetupEvent` in the source). -/
structure MeetupEvent where
  name : String
  description : String
  datetime : JsDate
  maxTickets : Option Int
  eventType : String
  rsvpCount : Int
  eventLink : String
  location : Option Coordinates
  distance : Option ℝ
  matchScore : Option JsNum

/-- The venue of a feed node, when present. -/
structure Venue where
  lat : ℝ
  lon : ℝ

/-- The rsvps object of a feed node. -/
structure RsvpInfo where
  totalCount : Int
deriving DecidableEq, Repr

/-- One raw event node from the feed response. -/
structure FeedNode where
  title : String
  description : String
  dateTime : String
  maxTickets : Option Int
  eventType : String
  rsvps : RsvpInfo
  eventUrl : String
  venue : Option Venue

/-- One edge of the feed GraphQL payload. -/
structure FeedEdge where
  node : FeedNode

/-- The deserialized feed payload, `data.result.edges`. -/
structure GraphQLResponse where
  edges : List FeedEdge

/-- A transport response: success flag, status text, and the parsed body. -/
structure HttpResp (α : Type) where
  ok : Bool
  statusText : String
  body : α

/-- Digits of a decimal numeral to its value. -/
def digitsToNat (ds : List Char) : Nat :=
  ds.foldl (fun a c => 10 * a + (c.toNat - 48)) 0

/-- JS `parseInt(s, 10)`: skip leading whitespace, optional sign, then the
longest prefix of decimal digits; NaN when that prefix is empty. Trailing
garbage is ignored. `parseInt` never throws. -/
def jsParseInt (s : String) : JsNum :=
  let cs := s.data.dropWhile Char.isWhitespace
  let sgn : Bool × List Char :=
    match cs with
    | '-' :: rest => (true, rest)
    | '+' :: rest => (false, rest)
    | _ => (false, cs)
  let ds := sgn.2.takeWhile Char.isDigit
  if ds.isEmpty then .nan
  else .int (if sgn.1 then -(digitsToNat ds : Int) else (digitsToNat ds : Int))

/-- JS `s.split("\x7b").pop()`: the suffix of `s` after its last opening
brace, or all of `s` when it has none. -/
def afterLastOpenBrace (s : String) : String :=
  ⟨(s.data.reverse.takeWhile (fun c => c ≠ '\x7b')).reverse⟩

/-- JS `.split("\x7d")[0]`: the prefix of `s` before its first closing
brace, or all of `s` when it has none. -/
def beforeFirstCloseBrace (s : String) : String :=
  ⟨s.data.takeWhile (fun c => c ≠ '\x7d')⟩

/-- The parsing step of `generateMatchRating` applied to the completion
reply text: extract everything after the last opening brace and before the
next closing brace; an empty extract (falsy) gives 0, otherwise the JS
`parseInt` of the extract. The try/catch of the source is not represented
because `parseInt` never throws. -/
def ratingOfReply (reply : String) : JsNum :=
  let m := beforeFirstCloseBrace (afterLastOpenBrace reply)
  if m = "" then .int 0 else jsParseInt m

/-- `openRouterRequest`: on a non-success transport response throw; on
success return the message content. -/
def openRouterRequest (resp : HttpResp String) : Except String String :=
  if resp.ok then .ok resp.body
  else .error ("OpenRouter API error: " ++ resp.statusText)

/-- `generateMatchRating` for one event: one completion request, then the
lenient rating parse of the reply. -/
def generateMatchRating (resp : HttpResp String) : Except String JsNum :=
  (openRouterRequest resp).map ratingOfReply

/-- Four-quadrant arctangent, the `Math.atan2` of the source formula. -/
noncomputable def atan2 (y x : ℝ) : ℝ :=
  if 0 < x then Real.arctan (y / x)
  else if x < 0 ∧ 0 ≤ y then Real.arctan (y / x) + Real.pi
  else if x < 0 then Real.arctan (y / x) - Real.pi
  else if 0 < y then Real.pi / 2
  else if y < 0 then -(Real.pi / 2)
  else 0

/-- `calculateDistance`: great-circle distance in kilometers by the
haversine formula with R = 6371, exactly as in the source (IEEE doubles
idealized as reals). -/
noncomputable def calculateDistance (coord1 coord2 : Coordinates) : ℝ :=
  let R : ℝ := 6371
  let rlat1 := coord1.latitude * Real.pi / 180
  let rlon1 := coord1.longitude * Real.pi / 180
  let rlat2 := coord2.latitude * Real.pi / 180
  let rlon2 := coord2.longitude * Real.pi / 180
  let dlat := rlat2 - rlat1
  let dlon := rlon2 - rlon1
  let a := Real.sin (dlat / 2) ^ 2 +
    Real.cos rlat1 * Real.cos rlat2 * Real.sin (dlon / 2) ^ 2
  let c := 2 * atan2 (Real.sqrt a) (Real.sqrt (1 - a))
  R * c

/-- The per-edge enrichment mapping of `findNearbyEvents`: copy scalar
fields, send a falsy `maxTickets` (null or 0) to absent, and when a venue
is present set `location` and `distance` together from it. -/
noncomputable def nodeToEvent (location : Coordinates) (node : FeedNode) : MeetupEvent :=
  let base : MeetupEvent :=
    { name := node.title
      description := node.description
      datetime := ⟨node.dateTime⟩
      maxTickets :=
        match node.maxTickets with
        | some v => if v = 0 then none else some v
        | none => none
      eventType := node.eventType
      rsvpCount := node.rsvps.totalCount
      eventLink := node.eventUrl
      location := none
      distance := none
      matchScore := none }
  match node.venue with
  | some v =>
      { base with
        location := some ⟨v.lat, v.lon⟩
        distance := some (calculateDistance location ⟨v.lat, v.lon⟩) }
  | none => base

/-- The enriched event list built from a feed payload, in feed order. -/
noncomputable def enrichedEvents (location : Coordinates) (payload : GraphQLResponse) :
    List MeetupEvent :=
  payload.edges.map fun edge => nodeToEvent location edge.node

/-- The batch scoring step: `Promise.all` over one scoring request per
event, attaching `matchScore` to an otherwise spread-copied event. The
i-th event of the batch consumes reply `replies (i0 + i)`; determinized
left to right, so the lowest-index transport failure rejects the batch. -/
def scoreAll (replies : Nat → HttpResp String) :
    Nat → List MeetupEvent → Except String (List MeetupEvent)
  | _, [] => .ok []
  | i0, e :: rest => do
      let r ← generateMatchRating (replies i0)
      let tail ← scoreAll replies (i0 + 1) rest
      pure ({ e with matchScore := some r } :: tail)

/-- The sort key of the comparator `(a, b) => (b.matchScore || 0) - (a.matchScore || 0)`:
JS `x || 0` maps an unset or NaN score (both falsy) to 0 and keeps any
other integer (0 stays 0 either way). -/
def scoreKey (e : MeetupEvent) : Int :=
  match e.matchScore with
  | some (.int n) => n
  | some .nan => 0
  | none => 0

/-- The comparator order: `a` may precede `b` when the comparator is
nonpositive, i.e. when the key of `a` is at least the key of `b`. -/
def rankLE (a b : MeetupEvent) : Bool :=
  scoreKey b ≤ scoreKey a

/-- `events.sort(comparator)`: a stable sort (ES2019 `Array.prototype.sort`
is stable) by match score descending. -/
def rankSort (l : List MeetupEvent) : List MeetupEvent :=
  l.mergeSort rankLE

/-- JS truthiness of the optional `interests` string: absent and the empty
string are falsy, any other string truthy. -/
def interestsTruthy : Option String → Bool
  | none => false
  | some s => !(s == "")

/-- `findNearbyEvents`: fetch (the transport response is passed in), throw
on a non-success status, enrich each node, and when interests are truthy
score the batch (any scoring transport failure rejects the whole call) and
stable-sort by match score descending. -/
noncomputable def findNearbyEvents (feedResp : HttpResp GraphQLResponse)
    (replies : Nat → HttpResp String) (location : Coordinates)
    (interests : Option String) : Except String (List MeetupEvent) :=
  if !feedResp.ok then
    .error ("Meetup API error: " ++ feedResp.statusText)
  else
    let events := enrichedEvents location feedResp.body
    if interestsTruthy interests then do
      let scored ← scoreAll replies 0 events
      pure (rankSort scored)
    else
      pure events

/-- A successful completion response with the given message content. -/
def okReply (s : String) : HttpResp String :=
  ⟨true, "OK", s⟩

/-- A concrete origin, the coordinates of scenario A. -/
def atlanta : Coordinates :=
  ⟨33.75, -84.39⟩

/-- A venue-less feed node used for concrete runs. -/
def plainNode (title : String) : FeedNode :=
  { title := title
    description := "desc"
    dateTime := "2025-06-01T19:00:00Z"
    maxTickets := none
    eventType := "music"
    rsvps := ⟨5⟩
    eventUrl := "https://example.com/e"
    venue := none }

/-- First concrete node. -/
def nodeA : FeedNode := plainNode "A"

/-- Second concrete node. -/
def nodeB : FeedNode := plainNode "B"

/-- A concrete node with a venue. -/
def venueNode : FeedNode :=
  { plainNode "V" with venue := some ⟨33.76, -84.40⟩ }

/-- A successful feed response around the given nodes. -/
def feedOf (nodes : List FeedNode) : HttpResp GraphQLResponse :=
  ⟨true, "OK", ⟨nodes.map FeedEdge.mk⟩⟩

/-- A reply schedule for a two-event batch: reply `r0` to the first scoring
request and `r1` to the second. -/
def pairReplies (r0 r1 : String) : Nat → HttpResp String :=
  fun i => if i = 0 then okReply r0 else okReply r1

/-- A reply schedule whose second scoring request hits a transport failure. -/
def failSecondReplies : Nat → HttpResp String :=
  fun i => if i = 0 then okReply "fine \x7b10\x7d" else ⟨false, "Too Many Requests", ""⟩

/-- The prose completion reply used to exercise the parse fallback. -/
def proseReply : String :=
  "This event is a great fit for music lovers."

lemma rankLE_trans : ∀ a b c : MeetupEvent, rankLE a b → rankLE b c → rankLE a c := by
  intro a b c hab hbc
  simp only [rankLE, decide_eq_true_eq] at *
  omega

lemma rankLE_total : ∀ a b : MeetupEvent, rankLE a b || rankLE b a := by
  intro a b
  simp only [rankLE, Bool.or_eq_true, decide_eq_true_eq]
  omega

lemma generateMatchRating_ok (resp : HttpResp String) (r : JsNum)
    (h : generateMatchRating resp = .ok r) :
    resp.ok = true ∧ r = ratingOfReply resp.body := by
  cases hok : resp.ok with
  | true =>
    simp [generateMatchRating, openRouterRequest, hok, Except.map] at h
    exact ⟨rfl, h.symm⟩
  | false => simp [generateMatchRating, openRouterRequest, hok, Except.map] at h

lemma scoreAll_cons_ok (replies : Nat → HttpResp String) (i0 : Nat)
    (e : MeetupEvent) (rest : List MeetupEvent) (scored : List MeetupEvent)
    (h : scoreAll replies i0 (e :: rest) = .ok scored) :
    ∃ r tail, generateMatchRating (replies i0) = .ok r ∧
      scoreAll replies (i0 + 1) rest = .ok tail ∧
      scored = { e with matchScore := some r } :: tail := by
  cases hgen : generateMatchRating (replies i0) with
  | error msg => simp [scoreAll, hgen, Bind.bind, Except.bind] at h
  | ok r =>
    cases htail : scoreAll replies (i0 + 1) rest with
    | error msg => simp [scoreAll, hgen, htail, Bind.bind, Except.bind] at h
    | ok tail =>
      simp [scoreAll, hgen, htail, Bind.bind, Except.bind, pure, Except.pure] at h
      exact ⟨r, tail, rfl, rfl, h.symm⟩

lemma scoreAll_length (replies : Nat → HttpResp String) :
    ∀ (l : List MeetupEvent) (i0 : Nat) (scored : List MeetupEvent),
      scoreAll replies i0 l = .ok scored → scored.length = l.length := by
  intro l
  induction l with
  | nil =>
    intro i0 scored h
    simp [scoreAll, pure, Except.pure] at h
    simp [← h]
  | cons e rest ih =>
    intro i0 scored h
    obtain ⟨r, tail, -, htail, rfl⟩ := scoreAll_cons_ok replies i0 e rest scored h
    simp [ih (i0 + 1) tail htail]

lemma scoreAll_get (replies : Nat → HttpResp String) :
    ∀ (l : List MeetupEvent) (i0 : Nat) (scored : List MeetupEvent),
      scoreAll replies i0 l = .ok scored →
      ∀ (k : Nat) (hk : k < l.length) (hk2 : k < scored.length),
        scored.get ⟨k, hk2⟩ =
          { l.get ⟨k, hk⟩ with
            matchScore := some (ratingOfReply (replies (i0 + k)).body) } := by
  intro l
  induction l with
  | nil => intro i0 scored h k hk; exact absurd hk (by simp)
  | cons e rest ih =>
    intro i0 scored h k hk hk2
    obtain ⟨r, tail, hgen, htail, rfl⟩ := scoreAll_cons_ok replies i0 e rest scored h
    obtain ⟨hok, rfl⟩ := generateMatchRating_ok (replies i0) r hgen
    cases k with
    | zero => simp
    | succ k =>
      have hk' : k < rest.length := by simpa using hk
      have hk2' : k < tail.length := by simpa using hk2
      have := ih (i0 + 1) tail htail k hk' hk2'
      simpa [Nat.add_comm, Nat.add_assoc, Nat.add_left_comm] using this

lemma scoreAll_isOk (replies : Nat → HttpResp String) :
    ∀ (l : List MeetupEvent) (i0 : Nat),
      (∀ i, i < l.length → (replies (i0 + i)).ok = true) →
      ∃ scored, scoreAll replies i0 l = .ok scored := by
  intro l
  induction l with
  | nil => intro i0 _; exact ⟨[], rfl⟩
  | cons e rest ih =>
    intro i0 hall
    have h0 : (replies i0).ok = true := by simpa using hall 0 (by simp)
    obtain ⟨tail, htail⟩ := ih (i0 + 1) (by
      intro i hi
      have := hall (i + 1) (by simpa using Nat.succ_lt_succ hi)
      simpa [Nat.add_comm, Nat.add_assoc, Nat.add_left_comm] using this)
    refine ⟨{ e with matchScore := some (ratingOfReply (replies i0).body) } :: tail, ?_⟩
    simp [scoreAll, generateMatchRating, openRouterRequest, h0, htail,
      Bind.bind, Except.bind, pure, Except.pure, Except.map]

lemma scoreAll_error_first (replies : Nat → HttpResp String) :
    ∀ (l : List MeetupEvent) (i0 j : Nat), j < l.length →
      (replies (i0 + j)).ok = false →
      (∀ i, i < j → (replies (i0 + i)).ok = true) →
      scoreAll replies i0 l =
        .error ("OpenRouter API error: " ++ (replies (i0 + j)).statusText) := by
  intro l
  induction l with
  | nil => intro i0 j hj; exact fun _ _ => absurd hj (by simp)
  | cons e rest ih =>
    intro i0 j hj hfail hbefore
    cases j with
    | zero =>
      simp only [Nat.add_zero] at hfail ⊢
      simp [scoreAll, generateMatchRating, openRouterRequest, hfail,
        Bind.bind, Except.bind, Except.map]
    | succ j =>
      have h0 : (replies i0).ok = true := by simpa using hbefore 0 (Nat.succ_pos j)
      have hrec := ih (i0 + 1) j (by simpa using hj)
        (by simpa [Nat.add_comm, Nat.add_assoc, Nat.add_left_comm] using hfail)
        (by
          intro i hi
          have := hbefore (i + 1) (Nat.succ_lt_succ hi)
          simpa [Nat.add_comm, Nat.add_assoc, Nat.add_left_comm] using this)
      have hidx : i0 + (j + 1) = i0 + 1 + j := by omega
      rw [hidx]
      simp [scoreAll, generateMatchRating, openRouterRequest, h0,
        Bind.bind, Except.bind, Except.map, hrec]

lemma findNearbyEvents_feed_fail (feedResp : HttpResp GraphQLResponse)
    (replies : Nat → HttpResp String) (location : Coordinates)
    (interests : Option String) (h : feedResp.ok = false) :
    findNearbyEvents feedResp replies location interests =
      .error ("Meetup API error: " ++ feedResp.statusText) := by
  simp [findNearbyEvents, h]

lemma findNearbyEvents_no_interests (feedResp : HttpResp GraphQLResponse)
    (replies : Nat → HttpResp String) (location : Coordinates)
    (interests : Option String) (hok : feedResp.ok = true)
    (h : interestsTruthy interests = false) :
    findNearbyEvents feedResp replies location interests =
      .ok (enrichedEvents location feedResp.body) := by
  simp [findNearbyEvents, hok, h, pure, Except.pure]

lemma findNearbyEvents_scored (feedResp : HttpResp GraphQLResponse)
    (replies : Nat → HttpResp String) (location : Coordinates)
    (interests : Option String) (scored : List MeetupEvent)
    (hok : feedResp.ok = true) (ht : interestsTruthy interests = true)
    (hs : scoreAll replies 0 (enrichedEvents location feedResp.body) = .ok scored) :
    findNearbyEvents feedResp replies location interests = .ok (rankSort scored) := by
  simp [findNearbyEvents, hok, ht, hs, Bind.bind, Except.bind, pure, Except.pure]

lemma findNearbyEvents_score_fail (feedResp : HttpResp GraphQLResponse)
    (replies : Nat → HttpResp String) (location : Coordinates)
    (interests : Option String) (msg : String)
    (hok : feedResp.ok = true) (ht : interestsTruthy interests = true)
    (hs : scoreAll replies 0 (enrichedEvents location feedResp.body) = .error msg) :
    findNearbyEvents feedResp replies location interests = .error msg := by
  simp [findNearbyEvents, hok, ht, hs, Bind.bind, Except.bind]

lemma nodeToEvent_matchScore (location : Coordinates) (node : FeedNode) :
    (nodeToEvent location node).matchScore = none := by
  cases h : node.venue <;> simp [nodeToEvent, h]

lemma nodeToEvent_venue_some (location : Coordinates) (node : FeedNode)
    (v : Venue) (h : node.venue = some v) :
    (nodeToEvent location node).location = some ⟨v.lat, v.lon⟩ ∧
    (nodeToEvent location node).distance =
      some (calculateDistance location ⟨v.lat, v.lon⟩) := by
  simp [nodeToEvent, h]

lemma nodeToEvent_venue_none (location : Coordinates) (node : FeedNode)
    (h : node.venue = none) :
    (nodeToEvent location node).location = none ∧
    (nodeToEvent location node).distance = none := by
  simp [nodeToEvent, h]

lemma nodeToEvent_loc_iff_dist (location : Coordinates) (node : FeedNode) :
    ((nodeToEvent location node).location.isSome ↔
      (nodeToEvent location node).distance.isSome) := by
  cases h : node.venue with
  | none => simp [(nodeToEvent_venue_none location node h).1,
      (nodeToEvent_venue_none location node h).2]
  | some v => simp [(nodeToEvent_venue_some location node v h).1,
      (nodeToEvent_venue_some location node v h).2]

lemma scoreAll_mem (replies : Nat → HttpResp String) :
    ∀ (l : List MeetupEvent) (i0 : Nat) (scored : List MeetupEvent),
      scoreAll replies i0 l = .ok scored →
      ∀ e ∈ scored, ∃ e0 ∈ l, ∃ r, e = { e0 with matchScore := some r } := by
  intro l
  induction l with
  | nil =>
    intro i0 scored h e he
    simp [scoreAll, pure, Except.pure] at h
    rw [h] at he
    simp at he
  | cons e0 rest ih =>
    intro i0 scored h e he
    obtain ⟨r, tail, -, htail, rfl⟩ := scoreAll_cons_ok replies i0 e0 rest scored h
    rcases List.mem_cons.mp he with rfl | hmem
    · exact ⟨e0, List.mem_cons_self e0 rest, r, rfl⟩
    · obtain ⟨e1, he1, r1, rfl⟩ := ih (i0 + 1) tail htail e hmem
      exact ⟨e1, List.mem_cons_of_mem e0 he1, r1, rfl⟩

lemma findNearbyEvents_ok_inv (feedResp : HttpResp GraphQLResponse)
    (replies : Nat → HttpResp String) (location : Coordinates)
    (interests : Option String) (l : List MeetupEvent)
    (hres : findNearbyEvents feedResp replies location interests = .ok l) :
    feedResp.ok = true ∧
    ((interestsTruthy interests = true ∧
        ∃ scored, scoreAll replies 0 (enrichedEvents location feedResp.body) = .ok scored ∧
          l = rankSort scored) ∨
      (interestsTruthy interests = false ∧
        l = enrichedEvents location feedResp.body)) := by
  cases hok : feedResp.ok with
  | false => rw [findNearbyEvents_feed_fail feedResp replies location interests hok] at hres; cases hres
  | true =>
    refine ⟨rfl, ?_⟩
    cases ht : interestsTruthy interests with
    | false =>
      rw [findNearbyEvents_no_interests feedResp replies location interests hok ht] at hres
      exact Or.inr ⟨rfl, (Except.ok.injEq _ _).mp hres.symm⟩
    | true =>
      cases hs : scoreAll replies 0 (enrichedEvents location feedResp.body) with
      | error msg =>
        rw [findNearbyEvents_score_fail feedResp replies location interests msg hok ht hs] at hres
        cases hres
      | ok scored =>
        rw [findNearbyEvents_scored feedResp replies location interests scored hok ht hs] at hres
        exact Or.inl ⟨rfl, scored, rfl, (Except.ok.injEq _ _).mp hres.symm⟩

lemma findNearby_single_eval (reply : String) :
    findNearbyEvents (feedOf [nodeA]) (fun _ => okReply reply) atlanta (some "jazz") =
      .ok [{ nodeToEvent atlanta nodeA with matchScore := some (ratingOfReply reply) }] := by
  have hs : scoreAll (fun _ => okReply reply) 0 (enrichedEvents atlanta (feedOf [nodeA]).body) =
      .ok [{ nodeToEvent atlanta nodeA with matchScore := some (ratingOfReply reply) }] := by
    simp [scoreAll, generateMatchRating, openRouterRequest, okReply, Except.map,
      Bind.bind, Except.bind, pure, Except.pure, enrichedEvents, feedOf]
  have h := findNearbyEvents_scored (feedOf [nodeA]) (fun _ => okReply reply)
    atlanta (some "jazz") _ rfl rfl hs
  rw [h, rankSort, List.mergeSort_singleton]

lemma findNearby_pair_eval (r0 r1 ints : String) (hints : ints ≠ "")
    (hsorted : rankLE { nodeToEvent atlanta nodeA with matchScore := some (ratingOfReply r0) }
        { nodeToEvent atlanta nodeB with matchScore := some (ratingOfReply r1) } = true) :
    findNearbyEvents (feedOf [nodeA, nodeB]) (pairReplies r0 r1) atlanta (some ints) =
      .ok [{ nodeToEvent atlanta nodeA with matchScore := some (ratingOfReply r0) },
        { nodeToEvent atlanta nodeB with matchScore := some (ratingOfReply r1) }] := by
  have hs : scoreAll (pairReplies r0 r1) 0 (enrichedEvents atlanta (feedOf [nodeA, nodeB]).body) =
      .ok [{ nodeToEvent atlanta nodeA with matchScore := some (ratingOfReply r0) },
        { nodeToEvent atlanta nodeB with matchScore := some (ratingOfReply r1) }] := by
    simp [scoreAll, pairReplies, generateMatchRating, openRouterRequest, okReply, Except.map,
      Bind.bind, Except.bind, pure, Except.pure, enrichedEvents, feedOf]
  have ht : interestsTruthy (some ints) = true := by simp [interestsTruthy, hints]
  have h := findNearbyEvents_scored (feedOf [nodeA, nodeB]) (pairReplies r0 r1)
    atlanta (some ints) _ rfl ht hs
  rw [h, rankSort, List.mergeSort_of_sorted]
  exact List.pairwise_cons.mpr ⟨fun b hb => by simpa [List.mem_singleton.mp hb] using hsorted,
    List.pairwise_singleton _ _⟩

/-- Claim C1 is false as stated: the scorer never clamps. With a completion
reply whose bracketed value is 150, the returned event carries match score
150, outside the range 0 to 100. -/
theorem C1_counterexample_unclamped :
    findNearbyEvents (feedOf [nodeA]) (fun _ => okReply "\x7b150\x7d") atlanta (some "jazz") =
      .ok [{ nodeToEvent atlanta nodeA with matchScore := some (JsNum.int 150) }] ∧
    ¬ ((150 : Int) ≤ 100) := by
  constructor
  · have h := findNearby_single_eval "\x7b150\x7d"
    have h150 : ratingOfReply "\x7b150\x7d" = .int 150 := by decide
    rw [h150] at h
    exact h
  · decide

/-- Claim C1 (amended): when non-empty interests are supplied and the call
succeeds, every returned event carries a match score, and it is an integer
in the range 0 to 100 provided each completion reply parses, by the
last-brace extraction, to an integer in that range; the code applies no
clamping and JS parseInt can yield NaN, so this proviso on the replies
cannot be dropped. -/
theorem C1_amended_score_range (feedResp : HttpResp GraphQLResponse)
    (replies : Nat → HttpResp String) (location : Coordinates)
    (interests : Option String) (l : List MeetupEvent)
    (ht : interestsTruthy interests = true)
    (hreplies : ∀ i, i < (enrichedEvents location feedResp.body).length →
        ∃ n : Int, ratingOfReply (replies i).body = .int n ∧ 0 ≤ n ∧ n ≤ 100)
    (hres : findNearbyEvents feedResp replies location interests = .ok l) :
    ∀ e ∈ l, ∃ n : Int, e.matchScore = some (.int n) ∧ 0 ≤ n ∧ n ≤ 100 := by
  obtain ⟨hok, hcase⟩ := findNearbyEvents_ok_inv feedResp replies location interests l hres
  rcases hcase with ⟨-, scored, hs, rfl⟩ | ⟨hf, -⟩
  · intro e he
    have hmem : e ∈ scored := by simpa [rankSort] using he
    obtain ⟨⟨k, hk⟩, hget⟩ := List.mem_iff_get.mp hmem
    have hlen := scoreAll_length replies _ 0 scored hs
    have hkb : k < (enrichedEvents location feedResp.body).length := by omega
    have hshape := scoreAll_get replies _ 0 scored hs k hkb hk
    obtain ⟨n, hn, h0, h100⟩ := hreplies k hkb
    refine ⟨n, ?_, h0, h100⟩
    rw [← hget, hshape]
    simpa using hn
  · rw [hf] at ht; cases ht

/-- Witness: a concrete run of the amended claim C1, one event scored 85. -/
theorem C1_amended_score_range_witness :
    ({ nodeToEvent atlanta nodeA with matchScore := some (JsNum.int 85) } :
      MeetupEvent).matchScore = some (JsNum.int 85) ∧
    (0 : Int) ≤ 85 ∧ (85 : Int) ≤ 100 := by
  have h := C1_amended_score_range (feedOf [nodeA]) (fun _ => okReply "nice \x7b85\x7d")
    atlanta (some "jazz") _ rfl
    (by
      intro i hi
      refine ⟨85, ?_, by decide, by decide⟩
      show ratingOfReply (okReply "nice \x7b85\x7d").body = JsNum.int 85
      decide)
    (findNearby_single_eval "nice \x7b85\x7d")
  obtain ⟨n, hn, h0, h100⟩ :=
    h { nodeToEvent atlanta nodeA with matchScore := some (ratingOfReply "nice \x7b85\x7d") }
      (by simp)
  have h85 : ratingOfReply "nice \x7b85\x7d" = .int 85 := by decide
  rw [h85] at hn
  simp only [Option.some.injEq, JsNum.int.injEq] at hn
  exact ⟨rfl, by omega, by omega⟩

/-- Claim C2 names the intended behavior, but the code has a slip: on a
plain-prose completion reply with no braces, the extracted text is the
whole reply, JS parseInt of it is NaN, and NaN, not the documented 0, is
attached as the match score; the try/catch never fires because parseInt
does not throw. The other event of the batch is returned unaffected and no
error is propagated. -/
theorem C2_prose_reply_yields_nan_not_zero :
    ratingOfReply proseReply = JsNum.nan ∧
    JsNum.nan ≠ JsNum.int 0 ∧
    findNearbyEvents (feedOf [nodeA, nodeB]) (pairReplies "good \x7b40\x7d" proseReply)
        atlanta (some "jazz") =
      .ok [{ nodeToEvent atlanta nodeA with matchScore := some (JsNum.int 40) },
        { nodeToEvent atlanta nodeB with matchScore := some JsNum.nan }] := by
  refine ⟨by decide, by decide, ?_⟩
  have h := findNearby_pair_eval "good \x7b40\x7d" proseReply "jazz" (by decide) (by decide)
  have h40 : ratingOfReply "good \x7b40\x7d" = .int 40 := by decide
  have hnan : ratingOfReply proseReply = .nan := by decide
  rw [h40, hnan] at h
  exact h

/-- Claim C3: with interests supplied, the returned sequence is the stable
descending sort of the scored batch by match score: the call returns
exactly the stable sort of the batch, which is a permutation of it; for
adjacent positions the integer scores are non-increasing; and two events
of the batch with equal match score keep their batch order. -/
theorem C3_stable_descending_sort (feedResp : HttpResp GraphQLResponse)
    (replies : Nat → HttpResp String) (location : Coordinates)
    (interests : Option String) (scored : List MeetupEvent)
    (hok : feedResp.ok = true) (ht : interestsTruthy interests = true)
    (hs : scoreAll replies 0 (enrichedEvents location feedResp.body) = .ok scored) :
    findNearbyEvents feedResp replies location interests = .ok (rankSort scored) ∧
    List.Perm (rankSort scored) scored ∧
    List.Chain' (fun a b => ∀ na nb : Int, a.matchScore = some (.int na) →
        b.matchScore = some (.int nb) → nb ≤ na) (rankSort scored) ∧
    (∀ a b : MeetupEvent, [a, b].Sublist scored → a.matchScore = b.matchScore →
        [a, b].Sublist (rankSort scored)) := by
  refine ⟨findNearbyEvents_scored _ _ _ _ _ hok ht hs,
    List.mergeSort_perm scored rankLE, ?_, ?_⟩
  · have hsorted := List.sorted_mergeSort rankLE_trans rankLE_total scored
    refine List.Pairwise.chain' (List.Pairwise.imp ?_ hsorted)
    intro a b hab na nb hna hnb
    simp only [rankLE, decide_eq_true_eq] at hab
    have ha : scoreKey a = na := by simp [scoreKey, hna]
    have hb : scoreKey b = nb := by simp [scoreKey, hnb]
    omega
  · intro a b hab heq
    have hkey : scoreKey a = scoreKey b := by
      simp [scoreKey, heq]
    have hle : rankLE a b = true := by
      simp [rankLE, hkey]
    exact List.pair_sublist_mergeSort rankLE_trans rankLE_total hle hab

/-- Witness: scenario C, two events with replies rated 85 and 40; the
85-scored event is returned first. -/
theorem C3_stable_descending_sort_witness :
    ((rankSort [{ nodeToEvent atlanta nodeA with matchScore := some (ratingOfReply "\x7b85\x7d") },
        { nodeToEvent atlanta nodeB with matchScore := some (ratingOfReply "\x7b40\x7d") }]).map
      MeetupEvent.matchScore) = [some (JsNum.int 85), some (JsNum.int 40)] := by
  have h := C3_stable_descending_sort (feedOf [nodeA, nodeB])
    (pairReplies "\x7b85\x7d" "\x7b40\x7d") atlanta (some "jazz concerts")
    [{ nodeToEvent atlanta nodeA with matchScore := some (ratingOfReply "\x7b85\x7d") },
      { nodeToEvent atlanta nodeB with matchScore := some (ratingOfReply "\x7b40\x7d") }]
    rfl (by decide)
    (by simp [scoreAll, pairReplies, okReply, generateMatchRating, openRouterRequest,
      Except.map, Bind.bind, Except.bind, pure, Except.pure, enrichedEvents, feedOf])
  have hid : rankSort [{ nodeToEvent atlanta nodeA with matchScore := some (ratingOfReply "\x7b85\x7d") },
      { nodeToEvent atlanta nodeB with matchScore := some (ratingOfReply "\x7b40\x7d") }] =
      [{ nodeToEvent atlanta nodeA with matchScore := some (ratingOfReply "\x7b85\x7d") },
        { nodeToEvent atlanta nodeB with matchScore := some (ratingOfReply "\x7b40\x7d") }] := by
    rw [rankSort]
    apply List.mergeSort_of_sorted
    exact List.pairwise_cons.mpr
      ⟨fun b hb => by rw [List.mem_singleton.mp hb]; decide, List.pairwise_singleton _ _⟩
  rw [hid]
  decide

/-- Claim C4: match score is attached to every returned event exactly when
a non-empty interests string was supplied; with interests absent or empty,
no returned event carries one. -/
theorem C4_matchScore_presence (feedResp : HttpResp GraphQLResponse)
    (replies : Nat → HttpResp String) (location : Coordinates)
    (interests : Option String) (l : List MeetupEvent)
    (hres : findNearbyEvents feedResp replies location interests = .ok l) :
    ((∃ s, interests = some s ∧ s ≠ "") → ∀ e ∈ l, e.matchScore.isSome = true) ∧
    ((interests = none ∨ interests = some "") → ∀ e ∈ l, e.matchScore = none) := by
  obtain ⟨hok, hcase⟩ := findNearbyEvents_ok_inv feedResp replies location interests l hres
  constructor
  · rintro ⟨s, rfl, hs⟩ e he
    rcases hcase with ⟨-, scored, hsc, rfl⟩ | ⟨hf, -⟩
    · have hmem : e ∈ scored := by simpa [rankSort] using he
      obtain ⟨e0, -, r, rfl⟩ := scoreAll_mem replies _ 0 scored hsc e hmem
      simp
    · simp [interestsTruthy, hs] at hf
  · rintro h e he
    rcases hcase with ⟨htt, -⟩ | ⟨-, rfl⟩
    · rcases h with rfl | rfl <;> simp [interestsTruthy] at htt
    · obtain ⟨edge, -, rfl⟩ := List.mem_map.mp (by simpa [enrichedEvents] using he)
      exact nodeToEvent_matchScore location edge.node

/-- Witness: a concrete scored run in which the single returned event has a
match score attached. -/
theorem C4_matchScore_presence_witness :
    ({ nodeToEvent atlanta nodeA with matchScore := some (ratingOfReply "ok \x7b55\x7d") } :
      MeetupEvent).matchScore.isSome = true := by
  have h := C4_matchScore_presence (feedOf [nodeA]) (fun _ => okReply "ok \x7b55\x7d")
    atlanta (some "jazz") _ (findNearby_single_eval "ok \x7b55\x7d")
  exact h.1 ⟨"jazz", rfl, by decide⟩ _ (by simp)

/-- Claim C5: with interests absent or empty the call returns the enriched
events exactly in feed order, with no re-sort of any kind. -/
theorem C5_no_interests_passthrough (feedResp : HttpResp GraphQLResponse)
    (replies : Nat → HttpResp String) (location : Coordinates)
    (interests : Option String) (hok : feedResp.ok = true)
    (h : interests = none ∨ interests = some "") :
    findNearbyEvents feedResp replies location interests =
      .ok (enrichedEvents location feedResp.body) := by
  have ht : interestsTruthy interests = false := by
    rcases h with rfl | rfl <;> simp [interestsTruthy]
  exact findNearbyEvents_no_interests feedResp replies location interests hok ht

/-- Witness: two events, no interests; the result is the feed order. -/
theorem C5_no_interests_passthrough_witness :
    findNearbyEvents (feedOf [nodeA, nodeB]) (fun _ => okReply "") atlanta none =
      .ok [nodeToEvent atlanta nodeA, nodeToEvent atlanta nodeB] := by
  have h := C5_no_interests_passthrough (feedOf [nodeA, nodeB]) (fun _ => okReply "")
    atlanta none rfl (Or.inl rfl)
  simpa [enrichedEvents, feedOf] using h

/-- Claim C6: on every returned event, location is defined exactly when
distance is defined; at enrichment time a venue sets both together, the
distance coming from the haversine calculator at the origin, and a missing
venue leaves both unset. -/
theorem C6_location_iff_distance (feedResp : HttpResp GraphQLResponse)
    (replies : Nat → HttpResp String) (location : Coordinates)
    (interests : Option String) (l : List MeetupEvent)
    (hres : findNearbyEvents feedResp replies location interests = .ok l) :
    (∀ e ∈ l, (e.location.isSome ↔ e.distance.isSome)) ∧
    (∀ (node : FeedNode) (v : Venue), node.venue = some v →
        (nodeToEvent location node).location = some ⟨v.lat, v.lon⟩ ∧
        (nodeToEvent location node).distance =
          some (calculateDistance location ⟨v.lat, v.lon⟩)) ∧
    (∀ node : FeedNode, node.venue = none →
        (nodeToEvent location node).location = none ∧
        (nodeToEvent location node).distance = none) := by
  refine ⟨?_, fun node v hv => nodeToEvent_venue_some location node v hv,
    fun node hn => nodeToEvent_venue_none location node hn⟩
  intro e he
  obtain ⟨hok, hcase⟩ := findNearbyEvents_ok_inv feedResp replies location interests l hres
  rcases hcase with ⟨-, scored, hsc, rfl⟩ | ⟨-, rfl⟩
  · have hmem : e ∈ scored := by simpa [rankSort] using he
    obtain ⟨e0, he0, r, rfl⟩ := scoreAll_mem replies _ 0 scored hsc e hmem
    obtain ⟨edge, -, rfl⟩ := List.mem_map.mp (by simpa [enrichedEvents] using he0)
    simpa using nodeToEvent_loc_iff_dist location edge.node
  · obtain ⟨edge, -, rfl⟩ := List.mem_map.mp (by simpa [enrichedEvents] using he)
    exact nodeToEvent_loc_iff_dist location edge.node

/-- Witness: a venue-bearing event returned by a concrete call has location
defined exactly when distance is. -/
theorem C6_location_iff_distance_witness :
    ((nodeToEvent atlanta venueNode).location.isSome ↔
      (nodeToEvent atlanta venueNode).distance.isSome) := by
  have h := C6_location_iff_distance (feedOf [venueNode]) (fun _ => okReply "")
    atlanta none _
    (findNearbyEvents_no_interests (feedOf [venueNode]) (fun _ => okReply "") atlanta none
      rfl rfl)
  exact h.1 _ (by simp [enrichedEvents, feedOf])

/-- Claim C7: a non-success feed transport response makes the whole call
fail with an error carrying the provider status description, and no events
are returned; the single response the call consumes is never re-requested. -/
theorem C7_fetch_failure_aborts (feedResp : HttpResp GraphQLResponse)
    (replies : Nat → HttpResp String) (location : Coordinates)
    (interests : Option String) (h : feedResp.ok = false) :
    findNearbyEvents feedResp replies location interests =
      .error ("Meetup API error: " ++ feedResp.statusText) ∧
    ∀ l : List MeetupEvent,
      findNearbyEvents feedResp replies location interests ≠ .ok l := by
  have heq := findNearbyEvents_feed_fail feedResp replies location interests h
  exact ⟨heq, fun l hl => by rw [heq] at hl; cases hl⟩

/-- Witness: scenario D, a feed 500 status aborts the call with no events. -/
theorem C7_fetch_failure_aborts_witness :
    findNearbyEvents ⟨false, "Internal Server Error", ⟨[]⟩⟩ (fun _ => okReply "")
        atlanta none =
      .error "Meetup API error: Internal Server Error" :=
  (C7_fetch_failure_aborts ⟨false, "Internal Server Error", ⟨[]⟩⟩ (fun _ => okReply "")
    atlanta none rfl).1

/-- Claim C8: when any scoring request of a batch receives a non-success
transport response, the whole call fails with an error carrying that
provider status description and returns no events: no partially scored or
partially ranked result is ever produced. -/
theorem C8_scoring_failure_aborts (feedResp : HttpResp GraphQLResponse)
    (replies : Nat → HttpResp String) (location : Coordinates)
    (interests : Option String)
    (hok : feedResp.ok = true) (ht : interestsTruthy interests = true)
    (hfail : ∃ i, i < (enrichedEvents location feedResp.body).length ∧
        (replies i).ok = false) :
    ∃ j, j < (enrichedEvents location feedResp.body).length ∧
      (replies j).ok = false ∧
      findNearbyEvents feedResp replies location interests =
        .error ("OpenRouter API error: " ++ (replies j).statusText) ∧
      ∀ l : List MeetupEvent,
        findNearbyEvents feedResp replies location interests ≠ .ok l := by
  obtain ⟨i, hi, hfi⟩ := hfail
  have hex : ∃ k, (replies k).ok = false := ⟨i, hfi⟩
  have hj : (replies (Nat.find hex)).ok = false := Nat.find_spec hex
  have hjle : Nat.find hex ≤ i := Nat.find_min' hex hfi
  have hjlt : Nat.find hex < (enrichedEvents location feedResp.body).length := by omega
  have hbefore : ∀ k, k < Nat.find hex → (replies k).ok = true := by
    intro k hk
    have hnot := Nat.find_min hex hk
    cases hkk : (replies k).ok with
    | true => rfl
    | false => exact absurd hkk hnot
  have herr := scoreAll_error_first replies (enrichedEvents location feedResp.body)
    0 (Nat.find hex) hjlt (by simpa using hj) (by intro k hk; simpa using hbefore k hk)
  have hmain := findNearbyEvents_score_fail feedResp replies location interests _
    hok ht herr
  refine ⟨Nat.find hex, hjlt, hj, by simpa using hmain, fun l hl => ?_⟩
  rw [hmain] at hl
  cases hl

/-- Witness: a two-event batch whose second scoring request fails with a
429 status text; the whole call errors with that status description. -/
theorem C8_scoring_failure_aborts_witness :
    findNearbyEvents (feedOf [nodeA, nodeB]) failSecondReplies atlanta (some "jazz") =
      .error "OpenRouter API error: Too Many Requests" := by
  have h := C8_scoring_failure_aborts (feedOf [nodeA, nodeB]) failSecondReplies atlanta
    (some "jazz") rfl (by decide) ⟨1, by decide, by decide⟩
  obtain ⟨j, hj, hfj, heq, -⟩ := h
  have hj2 : j < 2 := by simpa [enrichedEvents, feedOf] using hj
  interval_cases j
  · exact absurd hfj (by decide)
  · exact heq

/-- Claim C9: the feed-node mapping drops a null or zero maxTickets (any
falsy value becomes absent) and keeps any positive value. -/
theorem C9_maxTickets_falsy_absent (location : Coordinates) (node : FeedNode) :
    ((node.maxTickets = none ∨ node.maxTickets = some 0) →
      (nodeToEvent location node).maxTickets = none) ∧
    (∀ v : Int, node.maxTickets = some v → 0 < v →
      (nodeToEvent location node).maxTickets = some v) := by
  constructor
  · intro h
    rcases h with h | h <;> cases hv : node.venue <;> simp [nodeToEvent, h, hv]
  · intro v hv hpos
    have hvne : v ≠ 0 := by omega
    cases hven : node.venue <;> simp [nodeToEvent, hv, hven, hvne]

/-- Witness: a zero maxTickets maps to absent and a five maps to five. -/
theorem C9_maxTickets_falsy_absent_witness :
    (nodeToEvent atlanta { plainNode "T0" with maxTickets := some 0 }).maxTickets = none ∧
    (nodeToEvent atlanta { plainNode "T5" with maxTickets := some 5 }).maxTickets = some 5 :=
  ⟨(C9_maxTickets_falsy_absent atlanta _).1 (Or.inr rfl),
    (C9_maxTickets_falsy_absent atlanta _).2 5 rfl (by norm_num)⟩

/-- Claim C10: the scoring step is a frame on everything but matchScore:
the k-th scored event agrees with the k-th enriched event on name,
description, datetime, maxTickets, eventType, rsvpCount, eventLink,
location and distance, and only adds the parsed match score. -/
theorem C10_scoring_frame (replies : Nat → HttpResp String)
    (batch scored : List MeetupEvent)
    (h : scoreAll replies 0 batch = .ok scored) :
    scored.length = batch.length ∧
    ∀ (k : Nat) (hk : k < batch.length) (hk2 : k < scored.length),
      (scored.get ⟨k, hk2⟩).name = (batch.get ⟨k, hk⟩).name ∧
      (scored.get ⟨k, hk2⟩).description = (batch.get ⟨k, hk⟩).description ∧
      (scored.get ⟨k, hk2⟩).datetime = (batch.get ⟨k, hk⟩).datetime ∧
      (scored.get ⟨k, hk2⟩).maxTickets = (batch.get ⟨k, hk⟩).maxTickets ∧
      (scored.get ⟨k, hk2⟩).eventType = (batch.get ⟨k, hk⟩).eventType ∧
      (scored.get ⟨k, hk2⟩).rsvpCount = (batch.get ⟨k, hk⟩).rsvpCount ∧
      (scored.get ⟨k, hk2⟩).eventLink = (batch.get ⟨k, hk⟩).eventLink ∧
      (scored.get ⟨k, hk2⟩).location = (batch.get ⟨k, hk⟩).location ∧
      (scored.get ⟨k, hk2⟩).distance = (batch.get ⟨k, hk⟩).distance ∧
      (scored.get ⟨k, hk2⟩).matchScore = some (ratingOfReply (replies k).body) := by
  refine ⟨scoreAll_length replies batch 0 scored h, ?_⟩
  intro k hk hk2
  rw [scoreAll_get replies batch 0 scored h k hk hk2]
  simp

/-- Witness: a one-event batch; the scored event keeps the enriched name. -/
theorem C10_scoring_frame_witness :
    ([{ nodeToEvent atlanta nodeA with matchScore := some (ratingOfReply "x \x7b7\x7d") }].get
        ⟨0, by decide⟩).name =
      ([nodeToEvent atlanta nodeA].get ⟨0, by decide⟩).name := by
  have h := C10_scoring_frame (fun _ => okReply "x \x7b7\x7d") [nodeToEvent atlanta nodeA]
    [{ nodeToEvent atlanta nodeA with matchScore := some (ratingOfReply "x \x7b7\x7d") }]
    (by simp [scoreAll, generateMatchRating, openRouterRequest, okReply, Except.map,
      Bind.bind, Except.bind, pure, Except.pure])
  exact (h.2 0 (by decide) (by decide)).1
